import Mathlib

/-!
Verification of the zuzjs-pm process supervisor.

The definitions below are a shallow embedding of the TypeScript sources:
`src/src/worker.ts` (first, current variant of the `Worker` class),
`src/src/probe.ts`, the current `ProcessManager` (`src/unnamed/part_003`)
and the IPC message handler (`src/unnamed/part_001`).

External effects (actual OS process spawning, timers, sockets) are made
explicit: spawn results, timer firings and child exits are events carrying
the data the callbacks receive; `Date.now()` values are passed as `now`
parameters.  The per-worker record mirrors `ManagedProcess` from
`src/src/types.ts`; timer handles are modelled by the data the armed
callback closes over (a fired one-shot timeout cannot fire again, so a
fire disarms the modelled timer).
-/

namespace ZPM

/-- `WorkerMode` from `src/src/types.ts`. -/
inductive WorkerMode
  | fork
  | cluster
deriving DecidableEq, Repr

/-- `WorkerStatus` from `src/src/types.ts`. -/
inductive WorkerStatus
  | stopped
  | starting
  | running
  | stopping
  | crashed
  | errored
deriving DecidableEq, Repr

/-- `WorkerConfig` from `src/src/types.ts`, restricted to the fields the
supervision engine reads.  `scriptExists` stands for the file-system fact
`fs.existsSync(cfg.scriptPath)` and `cpus` for `os.cpus().length`. -/
structure WorkerConfig where
  name : String
  scriptExists : Bool
  mode : WorkerMode := .fork
  instances : Option Nat := some 1
  cpus : Nat := 1
  killTimeout : Option Nat := none
  maxBackoff : Option Nat := none
  hasProbe : Bool := false
  probeFailureThreshold : Option Nat := none
  devMode : Bool := false
deriving DecidableEq, Repr

/-- Default constants from the top of `src/src/worker.ts`. -/
def DEFAULT_KILL_TIMEOUT : Nat := 5000

def DEFAULT_MAX_BACKOFF : Nat := 16000

def INIT_BACKOFF : Nat := 1000

def STABILITY_WINDOW : Nat := 5000

/-- `ManagedProcess` from `src/src/types.ts`.  `children` holds the ids of
the live child processes.  `restartTimer`, when armed, carries the
`(restartCount, backoffTime)` pair the scheduled callback closed over in
`scheduleRestart`; `stabilityTimer`, when armed, carries its delay. -/
@[ext]
structure ManagedProcess where
  children : List Nat
  status : WorkerStatus
  startTime : Option Nat
  restartCount : Nat
  backoffTime : Nat
  restartTimer : Option (Nat × Nat)
  stabilityTimer : Option Nat
  probeTimer : Bool
  probeFailures : Nat
  isRestarting : Bool
  lastError : Option String
deriving DecidableEq, Repr

/-- `Worker.initStore` from `src/src/worker.ts`. -/
def initStore : ManagedProcess :=
  { children := []
    status := .stopped
    startTime := none
    restartCount := 0
    backoffTime := INIT_BACKOFF
    restartTimer := none
    stabilityTimer := none
    probeTimer := false
    probeFailures := 0
    isRestarting := false
    lastError := none }

/-- `this.cfg.maxBackoff ?? DEFAULT_MAX_BACKOFF` in `scheduleRestart`. -/
def maxBackoffOf (cfg : WorkerConfig) : Nat :=
  cfg.maxBackoff.getD DEFAULT_MAX_BACKOFF

/-- Number of children `spawnAll` attempts to fork:
`mode === Cluster ? (cfg.instances ?? os.cpus().length) : 1`. -/
def resolvedInstances (cfg : WorkerConfig) : Nat :=
  if cfg.mode = .cluster then cfg.instances.getD cfg.cpus else 1

/-- `Worker.stopProbe`: clears the probe interval; resets `probeFailures`
only when a probe timer was actually set. -/
def stopProbeF (s : ManagedProcess) : ManagedProcess :=
  if s.probeTimer then { s with probeTimer := false, probeFailures := 0 } else s

/-- `Worker.clearTimers`: cancels the pending restart and stability timers. -/
def clearTimersF (s : ManagedProcess) : ManagedProcess :=
  { s with restartTimer := none, stabilityTimer := none }

/-- The children collected by the `for` loop in `Worker.spawnAll`:
slot `i` contributes a child exactly when `forkChild()` returned non-null,
which the event parameter `forkRes` records as `some pid`. -/
def spawnChildren (cfg : WorkerConfig) (forkRes : List (Option Nat)) : List Nat :=
  (List.range (resolvedInstances cfg)).filterMap (fun i => forkRes.getD i none)

/-- `Worker.spawnAll` (first variant, `src/src/worker.ts` lines 284-332).
Missing script puts the worker in `Errored`; zero spawned children leaves it
`Stopped`; otherwise the worker becomes `Running`, records `startTime`,
arms the stability timer for `STABILITY_WINDOW` ms and, if a probe is
configured, starts the probe interval. -/
def spawnAll (cfg : WorkerConfig) (forkRes : List (Option Nat)) (now : Nat)
    (s : ManagedProcess) : ManagedProcess :=
  if cfg.scriptExists = false then
    { s with status := .errored }
  else if spawnChildren cfg forkRes = [] then
    { s with status := .stopped }
  else
    let s1 := { s with children := spawnChildren cfg forkRes
                       startTime := some now
                       status := .running }
    let s2 := { s1 with stabilityTimer := some STABILITY_WINDOW }
    if cfg.hasProbe then { s2 with probeTimer := true } else s2

/-- `Worker.start` (`src/src/worker.ts` lines 142-174).  Running or
Starting workers are left untouched; otherwise counters and timers are
reset for a fresh manual start and `spawnAll` runs. -/
def startF (cfg : WorkerConfig) (forkRes : List (Option Nat)) (now : Nat)
    (s : ManagedProcess) : ManagedProcess :=
  if s.status = .running ∨ s.status = .starting then s
  else
    let s1 := { s with status := .starting
                       isRestarting := false
                       children := []
                       restartCount := 0
                       backoffTime := INIT_BACKOFF
                       probeFailures := 0
                       startTime := none }
    spawnAll cfg forkRes now (stopProbeF (clearTimersF s1))

/-- `Worker.stop` (`src/src/worker.ts` lines 198-226).  `timedOut` records
which side of the 10-second `Promise.race` resolved; either way the same
final patch runs.  Child exits delivered while the status is `Stopping`
only remove the child from `children` (see `onChildExit`), and the final
patch overwrites `children` with `[]` regardless. -/
def stopF (timedOut : Bool) (s : ManagedProcess) : ManagedProcess :=
  if s.status = .stopping then s
  else
    let s1 := { s with status := .stopping, isRestarting := false }
    let s2 := stopProbeF (clearTimersF s1)
    let _ := timedOut
    { s2 with children := [], status := .stopped, startTime := none }

/-- `Worker.restart` (`src/src/worker.ts` lines 228-251).  Sets
`isRestarting` and `Stopping`, clears timers and the probe, drains all
children (their exit events observe `Stopping` and only drop them from the
list), then patches `isRestarting := false, children := []`. -/
def restartF (s : ManagedProcess) : ManagedProcess :=
  if s.isRestarting then s
  else
    let s1 := { s with isRestarting := true, status := .stopping }
    let s2 := stopProbeF (clearTimersF s1)
    { s2 with isRestarting := false, children := [] }

/-- `Worker.scheduleRestart` (`src/src/worker.ts` lines 483-502): arms the
restart timer for `backoffTime` ms; the callback closes over the current
`restartCount` and `backoffTime`, which the armed timer records.  Note the
source's `this.patch({restartTimer})` only overwrites the stored handle: a
previously armed timeout is NOT cancelled and still fires.  This
store-level function tracks the stored handle's capture; the pending
timeouts themselves (stale ones included) are modelled by the refined
`WorkerRun` semantics further below. -/
def scheduleRestartF (s : ManagedProcess) : ManagedProcess :=
  { s with restartTimer := some (s.restartCount, s.backoffTime) }

/-- `Worker.onChildExit` (first variant, `src/src/worker.ts` lines
441-479).  The child is removed from `children`; an intentional stop
returns early; during an operator restart the last exit triggers a
re-spawn; a non-zero, non-null exit code marks the worker `Crashed` and —
fast fail (`uptime < 1500`) or not, the early `return` there is commented
out — schedules a backoff restart. -/
def onChildExit (cfg : WorkerConfig) (child : Nat) (code : Option Int)
    (uptime : Nat) (forkRes : List (Option Nat)) (now : Nat)
    (s : ManagedProcess) : ManagedProcess :=
  let remaining := s.children.filter (fun c => c ≠ child)
  let s1 := { s with children := remaining }
  if s.status = .stopping then s1
  else if s.isRestarting then
    if remaining = [] then spawnAll cfg forkRes now { s1 with isRestarting := false }
    else s1
  else if code ≠ some 0 ∧ code ≠ none then
    let _ := uptime
    scheduleRestartF { s1 with status := .crashed }
  else s1

/-- The `setTimeout` callback armed by `scheduleRestart`, firing for the
timer the store currently tracks: increments the captured `restartCount`,
doubles the captured backoff up to `maxBackoff`, then calls `spawnAll`.
A fired one-shot timer is disarmed.  This single-pending-timer view is an
abstraction: overwritten (stale) timeouts also fire in the source; they
are covered by `runRestartFire` in the refined `WorkerRun` semantics. -/
def restartFireF (cfg : WorkerConfig) (forkRes : List (Option Nat)) (now : Nat)
    (s : ManagedProcess) : ManagedProcess :=
  match s.restartTimer with
  | none => s
  | some (rc, b) =>
      spawnAll cfg forkRes now
        { s with restartCount := rc + 1
                 backoffTime := min (b * 2) (maxBackoffOf cfg)
                 restartTimer := none }

/-- The stability-window callback armed in `spawnAll`: if the worker is
still `Running` when it fires, backoff and restart count reset; otherwise
nothing is patched.  A fired one-shot timer is disarmed. -/
def stabilityFireF (s : ManagedProcess) : ManagedProcess :=
  let s0 := { s with stabilityTimer := none }
  if s.status = .running then
    { s0 with backoffTime := INIT_BACKOFF, restartCount := 0 }
  else s0

/-- One tick of the probe interval armed by `Worker.startProbe`
(`src/src/worker.ts` lines 506-534).  `alive` is the result of
`runProbe`. -/
def probeTickF (cfg : WorkerConfig) (alive : Bool) (s : ManagedProcess) :
    ManagedProcess :=
  if s.probeTimer = false then s
  else if s.status ≠ .running then s
  else if alive then
    if s.probeFailures > 0 then { s with probeFailures := 0 } else s
  else
    let failures := s.probeFailures + 1
    let threshold := cfg.probeFailureThreshold.getD 3
    let s1 := { s with probeFailures := failures }
    if failures ≥ threshold then restartF { s1 with probeFailures := 0 } else s1

/-- One event of the per-worker event loop: an operator command, a child
exit (only for a child actually in the list), or a timer firing. -/
inductive Step (cfg : WorkerConfig) : ManagedProcess → ManagedProcess → Prop
  | startCmd (forkRes : List (Option Nat)) (now : Nat) (s : ManagedProcess) :
      Step cfg s (startF cfg forkRes now s)
  | stopCmd (timedOut : Bool) (s : ManagedProcess) :
      Step cfg s (stopF timedOut s)
  | restartCmd (s : ManagedProcess) :
      Step cfg s (restartF s)
  | childExit (child : Nat) (code : Option Int) (uptime : Nat)
      (forkRes : List (Option Nat)) (now : Nat) (s : ManagedProcess)
      (h : child ∈ s.children) :
      Step cfg s (onChildExit cfg child code uptime forkRes now s)
  | restartFire (forkRes : List (Option Nat)) (now : Nat) (s : ManagedProcess)
      (h : s.restartTimer ≠ none) :
      Step cfg s (restartFireF cfg forkRes now s)
  | stabilityFire (s : ManagedProcess) (h : s.stabilityTimer ≠ none) :
      Step cfg s (stabilityFireF s)
  | probeTick (alive : Bool) (s : ManagedProcess) :
      Step cfg s (probeTickF cfg alive s)

/-- States reachable from the freshly initialised store record. -/
inductive Reachable (cfg : WorkerConfig) : ManagedProcess → Prop
  | init : Reachable cfg initStore
  | step {s t : ManagedProcess} :
      Reachable cfg s → Step cfg s t → Reachable cfg t

/-! Concrete example configurations and states used by witnesses and
counterexamples. -/

/-- A plain single-instance (fork mode) configuration whose script exists. -/
def cfgFork : WorkerConfig :=
  { name := "api", scriptExists := true }

/-- A cluster configuration with two instances. -/
def cfgCluster : WorkerConfig :=
  { name := "web", scriptExists := true, mode := .cluster
    instances := some 2, cpus := 2 }

/-- The fork worker after a successful `start`: Running with child 7. -/
def exRunning : ManagedProcess :=
  startF cfgFork [some 7] 100 initStore

/-- `exRunning` after child 7 exits with code 1: Crashed, restart timer armed. -/
def exCrashed : ManagedProcess :=
  onChildExit cfgFork 7 (some 1) 2000 [] 0 exRunning

example : exRunning.status = .running ∧ exRunning.children = [7] := by decide

example : exCrashed.status = .crashed ∧ exCrashed.restartTimer = some (0, 1000) := by
  decide

/-- `exRunning` is an actual execution state of the fork worker. -/
theorem exRunning_reachable : Reachable cfgFork exRunning :=
  Reachable.step Reachable.init (Step.startCmd [some 7] 100 initStore)

/-- `exCrashed` is an actual execution state of the fork worker. -/
theorem exCrashed_reachable : Reachable cfgFork exCrashed :=
  Reachable.step exRunning_reachable
    (Step.childExit 7 (some 1) 2000 [] 0 exRunning (by decide))

/-- C2: a non-zero, non-null exit while the worker is neither Stopping nor
restarting marks the worker Crashed and arms the backoff restart timer,
even when the uptime is below 1500 ms: the fast-fail case is logged but
`scheduleRestart` is still invoked. -/
theorem fast_fail_still_schedules_restart (cfg : WorkerConfig) (child : Nat)
    (k : Int) (uptime : Nat) (forkRes : List (Option Nat)) (now : Nat)
    (s : ManagedProcess)
    (hstop : s.status ≠ .stopping) (hrest : s.isRestarting = false)
    (hk : k ≠ 0) (hfast : uptime < 1500) :
    (onChildExit cfg child (some k) uptime forkRes now s).status = .crashed ∧
    (onChildExit cfg child (some k) uptime forkRes now s).restartTimer =
      some (s.restartCount, s.backoffTime) := by
  have hcode : (some k : Option Int) ≠ some 0 ∧ (some k : Option Int) ≠ none := by
    refine ⟨?_, by simp⟩
    simp [hk]
  simp [onChildExit, hstop, hrest, hcode, scheduleRestartF]

/-- Witness for C2: a concrete 200 ms crash of the running fork worker
still arms the restart timer. -/
theorem fast_fail_still_schedules_restart_witness :
    (onChildExit cfgFork 7 (some 1) 200 [] 0 exRunning).status = .crashed ∧
    (onChildExit cfgFork 7 (some 1) 200 [] 0 exRunning).restartTimer =
      some (exRunning.restartCount, exRunning.backoffTime) :=
  fast_fail_still_schedules_restart cfgFork 7 1 200 [] 0 exRunning
    (by decide) (by decide) (by decide) (by decide)

/-- Normal form of a non-trivial `stop()`: the full final record. -/
theorem stopF_eq (timedOut : Bool) (s : ManagedProcess)
    (h : s.status ≠ .stopping) :
    stopF timedOut s =
      { children := []
        status := .stopped
        startTime := none
        restartCount := s.restartCount
        backoffTime := s.backoffTime
        restartTimer := none
        stabilityTimer := none
        probeTimer := false
        probeFailures := if s.probeTimer then 0 else s.probeFailures
        isRestarting := false
        lastError := s.lastError } := by
  simp only [stopF, stopProbeF, clearTimersF, if_neg h]
  split <;> simp_all

/-- C3: `stop()` from any status other than Stopping ends with
`status = Stopped`, `children = ∅` and `startTime = null` — on the normal
path and on the 10-second safety-timeout path alike (`timedOut` covers
both sides of the race). -/
theorem stop_always_stops (timedOut : Bool) (s : ManagedProcess)
    (h : s.status ≠ .stopping) :
    (stopF timedOut s).status = .stopped ∧
    (stopF timedOut s).children = [] ∧
    (stopF timedOut s).startTime = none := by
  rw [stopF_eq timedOut s h]
  exact ⟨rfl, rfl, rfl⟩

/-- Witness for C3: stopping the concrete running fork worker, on both
sides of the safety race. -/
theorem stop_always_stops_witness :
    ((stopF false exRunning).status = .stopped ∧
      (stopF false exRunning).children = [] ∧
      (stopF false exRunning).startTime = none) ∧
    ((stopF true exRunning).status = .stopped ∧
      (stopF true exRunning).children = [] ∧
      (stopF true exRunning).startTime = none) :=
  ⟨stop_always_stops false exRunning (by decide),
   stop_always_stops true exRunning (by decide)⟩

/-- C9: `stop` is idempotent — a second `stop`, whichever way its safety
race resolves, leaves the record exactly as the first `stop` left it. -/
theorem stop_idempotent (t1 t2 : Bool) (s : ManagedProcess) :
    stopF t2 (stopF t1 s) = stopF t1 s := by
  by_cases h : s.status = .stopping
  · have h1 : stopF t1 s = s := by simp [stopF, h]
    rw [h1]
    simp [stopF, h]
  · rw [stopF_eq t1 s h]
    rw [stopF_eq t2 _ (by simp)]
    simp

/-- C10: `start()` while the worker is Running or Starting is a no-op:
the state record is returned unmodified. -/
theorem start_noop_when_active (cfg : WorkerConfig)
    (forkRes : List (Option Nat)) (now : Nat) (s : ManagedProcess)
    (h : s.status = .running ∨ s.status = .starting) :
    startF cfg forkRes now s = s := by
  simp [startF, h]

/-- Witness for C10: starting the already-running concrete worker changes
nothing. -/
theorem start_noop_when_active_witness :
    startF cfgFork [some 9] 999 exRunning = exRunning :=
  start_noop_when_active cfgFork [some 9] 999 exRunning (Or.inl (by decide))

/-! ## Probes (`src/src/probe.ts`)

Each probe resolves its promise from exactly one transport event; the
event the probe observed is made explicit.  `timeout` is the probe's own
timeout handler firing first, `err` any transport error. -/

/-- The single transport event a probe invocation resolves on. -/
inductive ProbeEvent
  | httpResponse (statusCode : Option Nat)
  | tcpConnect
  | execExit (failed : Bool)
  | err
  | timeout
deriving DecidableEq, Repr

/-- The `type` field of `LivenessProbeConfig`. -/
inductive ProbeType
  | http
  | tcp
  | exec
deriving DecidableEq, Repr

/-- `probeHttp`: alive iff a response arrived and
`(res.statusCode ?? 500) < 500`. -/
def probeHttp (e : ProbeEvent) : Bool :=
  match e with
  | .httpResponse sc => decide (sc.getD 500 < 500)
  | _ => false

/-- `probeTcp`: alive iff the connection callback ran. -/
def probeTcp (e : ProbeEvent) : Bool :=
  match e with
  | .tcpConnect => true
  | _ => false

/-- `probeExec`: alive iff `exec` completed before the timeout with no
error (`resolve(!err)`). -/
def probeExec (e : ProbeEvent) : Bool :=
  match e with
  | .execExit failed => !failed
  | _ => false

/-- `runProbe`: dispatches on the probe type with
`timeoutMs = (cfg.timeoutSeconds ?? 5) * 1000`; the timeout is what makes
the `timeout` event possible, the boolean outcome depends only on the
event observed. -/
def runProbe (ty : ProbeType) (timeoutSeconds : Option Nat) (e : ProbeEvent) :
    Bool :=
  let _timeoutMs := (timeoutSeconds.getD 5) * 1000
  match ty with
  | .http => probeHttp e
  | .tcp => probeTcp e
  | .exec => probeExec e

/-- C8: an http probe is alive exactly when a response with a status code
below 500 arrived before the timeout (a response without a status code
counts as 500), and for every probe type an error or a timeout yields
`false` — the single invocation performs no retry. -/
theorem probe_http_iff_and_errors_false :
    (∀ (tmo : Option Nat) (e : ProbeEvent),
      runProbe .http tmo e = true ↔
        ∃ sc : Nat, e = .httpResponse (some sc) ∧ sc < 500) ∧
    (∀ (ty : ProbeType) (tmo : Option Nat),
      runProbe ty tmo .err = false ∧ runProbe ty tmo .timeout = false) := by
  constructor
  · intro tmo e
    cases e with
    | httpResponse sc =>
        cases sc with
        | none => simp [runProbe, probeHttp]
        | some n => simp [runProbe, probeHttp, Option.getD]
    | tcpConnect => simp [runProbe, probeHttp]
    | execExit failed => simp [runProbe, probeHttp]
    | err => simp [runProbe, probeHttp]
    | timeout => simp [runProbe, probeHttp]
  · intro ty tmo
    cases ty <;> simp [runProbe, probeHttp, probeTcp, probeExec]

/-- Witness for C8 at concrete inputs: a 200 response is alive, a 503
response is dead, and error/timeout are dead for every type. -/
theorem probe_http_iff_and_errors_false_witness :
    (runProbe .http (some 2) (.httpResponse (some 200)) = true ↔
      ∃ sc : Nat, (ProbeEvent.httpResponse (some 200)) = .httpResponse (some sc) ∧ sc < 500) ∧
    (runProbe .tcp none .err = false ∧ runProbe .tcp none .timeout = false) :=
  ⟨probe_http_iff_and_errors_false.1 (some 2) (.httpResponse (some 200)),
   probe_http_iff_and_errors_false.2 .tcp none⟩

/-! ## ProcessManager (current variant, `src/unnamed/part_003`) and the
IPC message handler (`src/unnamed/part_001`).

The registry (`workers : Map<string, Worker>`) and the singleton
`processStore` are association lists keyed by worker name, preserving the
JS `Map` insertion-order semantics.  Snapshot writes are file-system
effects with no bearing on the in-memory state and are omitted. -/

/-- The daemon-side state: the `ProcessManager` registry (each `Worker`
keeps its construction-time config) and the `processStore`. -/
structure PMState where
  workers : List (String × WorkerConfig)
  store : List (String × ManagedProcess)
deriving DecidableEq, Repr

/-- `processStore.get`. -/
def storeGet (st : List (String × ManagedProcess)) (n : String) :
    Option ManagedProcess :=
  (st.find? (fun p => p.1 = n)).map (fun p => p.2)

/-- `processStore.set` (JS `Map.set`: update in place, else append). -/
def storeSet (st : List (String × ManagedProcess)) (n : String)
    (mp : ManagedProcess) : List (String × ManagedProcess) :=
  if st.any (fun p => p.1 = n) then
    st.map (fun p => if p.1 = n then (n, mp) else p)
  else st ++ [(n, mp)]

/-- `this.workers.get(name)` on the registry. -/
def pmFind (pm : PMState) (n : String) : Option (String × WorkerConfig) :=
  pm.workers.find? (fun p => p.1 = n)

/-- `ProcessManager.start` (`src/unnamed/part_003` lines 26-57).  If a
worker with that name is registered and its stored status is terminal
(Stopped, Crashed or Errored), the existing worker is resumed by calling
its `start()` (with its original config).  If it is registered in any
other state — or its store record is missing — the method logs a
`use restart()` warning and returns with nothing changed.  Otherwise a new
`Worker` is constructed (its constructor resets the store record) and
started. -/
def pmStart (cfg : WorkerConfig) (forkRes : List (Option Nat)) (now : Nat)
    (pm : PMState) : PMState :=
  match pmFind pm cfg.name with
  | some (_, origCfg) =>
      match storeGet pm.store cfg.name with
      | some mp =>
          if mp.status = .stopped ∨ mp.status = .crashed ∨ mp.status = .errored then
            { pm with store := storeSet pm.store cfg.name (startF origCfg forkRes now mp) }
          else pm
      | none => pm
  | none =>
      let pm1 : PMState :=
        { workers := pm.workers ++ [(cfg.name, cfg)]
          store := storeSet pm.store cfg.name initStore }
      { pm1 with store := storeSet pm1.store cfg.name (startF cfg forkRes now initStore) }

/-- `ProcessManager.stop`: `require` (lines 137-145) returns `null` for an
unknown name — after logging `Worker Not Found` — and `stop` then returns
without doing anything. -/
def pmStop (n : String) (timedOut : Bool) (pm : PMState) : PMState :=
  match pmFind pm n with
  | none => pm
  | some _ =>
      { pm with store := storeSet pm.store n (stopF timedOut ((storeGet pm.store n).getD initStore)) }

/-- `ProcessManager.restart`, same unknown-name behaviour as `stop`. -/
def pmRestart (n : String) (pm : PMState) : PMState :=
  match pmFind pm n with
  | none => pm
  | some _ =>
      { pm with store := storeSet pm.store n (restartF ((storeGet pm.store n).getD initStore)) }

/-- `ProcessManager.delete`: unknown name is a logged no-op; otherwise the
worker is stopped and both the registry entry and the store record are
removed. -/
def pmDelete (n : String) (pm : PMState) : PMState :=
  match pmFind pm n with
  | none => pm
  | some _ =>
      { workers := pm.workers.filter (fun p => p.1 ≠ n)
        store := pm.store.filter (fun p => p.1 ≠ n) }

/-- `WorkerStats` from `src/src/types.ts`.  `cpu`/`memoryRss` come from a
per-PID usage query whose outcome is the `usage` parameter. -/
structure WorkerStatsM where
  name : String
  status : WorkerStatus
  pid : Option Nat
  uptime : Option Nat
  restartCount : Nat
  cpu : Option Nat
  memoryRss : Option Nat
  memoryHeap : Option Nat
  mode : WorkerMode
  instances : Nat
deriving DecidableEq, Repr

/-- `Worker.getStats` (`src/src/worker.ts` lines 253-280). -/
def getStatsF (now : Nat) (usage : Option (Nat × Nat)) (cfg : WorkerConfig)
    (mp : ManagedProcess) : WorkerStatsM :=
  let pid := mp.children.head?
  let live := pid.isSome && decide (mp.status = .running)
  { name := cfg.name
    status := mp.status
    pid := pid
    uptime := mp.startTime.map (fun t0 => now - t0)
    restartCount := mp.restartCount
    cpu := if live then usage.map Prod.fst else none
    memoryRss := if live then usage.map Prod.snd else none
    memoryHeap := none
    mode := cfg.mode
    instances := mp.children.length }

/-- `ProcessManager.getStats`: for a named worker, an unknown name yields
`[]` (after the `Worker Not Found` log); otherwise a one-element list. -/
def pmGetStats (name : Option String) (now : Nat) (usage : Option (Nat × Nat))
    (pm : PMState) : List WorkerStatsM :=
  match name with
  | some n =>
      match pmFind pm n with
      | none => []
      | some (_, cfg) => [getStatsF now usage cfg ((storeGet pm.store n).getD initStore)]
  | none =>
      pm.workers.map (fun p => getStatsF now usage p.2 ((storeGet pm.store p.1).getD initStore))

/-- The payload of an `{ok:true, data}` reply. -/
inductive RespData
  | msg (s : String)
  | statsList (l : List WorkerStatsM)
  | names (l : List String)
  | pong
deriving DecidableEq, Repr

/-- `IPCResponse` from `src/src/types.ts`. -/
inductive IPCResponseM
  | ok (data : RespData)
  | fail (error : String)
deriving DecidableEq, Repr

/-- Whether a reply is the `{ok:true}` variant. -/
def IPCResponseM.isOk : IPCResponseM → Bool
  | .ok _ => true
  | .fail _ => false

/-- `handleMessage`, case `"start"` (`src/unnamed/part_001` lines 82-85):
`pm.start` never throws — the already-registered paths log and return — so
the reply is always `ok:true` with the human string built from
`cmd.name`. -/
def handleStart (cmdName : String) (cfg : WorkerConfig)
    (forkRes : List (Option Nat)) (now : Nat) (pm : PMState) :
    PMState × IPCResponseM :=
  (pmStart cfg forkRes now pm,
   .ok (.msg ("Started \"" ++ cmdName ++ "\"")))

/-- `handleMessage`, case `"stop"`: `pm.stop` returns normally even when
the worker is unknown, so the reply is `ok:true`. -/
def handleStop (n : String) (timedOut : Bool) (pm : PMState) :
    PMState × IPCResponseM :=
  (pmStop n timedOut pm, .ok (.msg ("Stopped \"" ++ n ++ "\"")))

/-- `handleMessage`, case `"restart"`. -/
def handleRestart (n : String) (pm : PMState) : PMState × IPCResponseM :=
  (pmRestart n pm, .ok (.msg ("Restarted \"" ++ n ++ "\"")))

/-- `handleMessage`, case `"delete"`. -/
def handleDelete (n : String) (pm : PMState) : PMState × IPCResponseM :=
  (pmDelete n pm, .ok (.msg ("Deleted \"" ++ n ++ "\"")))

/-- `handleMessage`, case `"stats"`. -/
def handleStats (name : Option String) (now : Nat) (usage : Option (Nat × Nat))
    (pm : PMState) : PMState × IPCResponseM :=
  (pm, .ok (.statsList (pmGetStats name now usage pm)))

/-- The daemon registry before any command. -/
def pmEmpty : PMState := { workers := [], store := [] }

/-- The daemon after `start` registered and started the fork worker. -/
def pmOne : PMState := (handleStart "api" cfgFork [some 7] 100 pmEmpty).1

example : storeGet pmOne.store "api" = some exRunning := by decide

/-- The daemon after additionally stopping that worker. -/
def pmStopped : PMState := (handleStop "api" false pmOne).1

/-- Counterexample to C6 as stated: calling `start` for a name whose
worker is currently Running changes nothing, but the client receives the
`{ok:true, data:'Started "api"'}` success reply — not an error telling it
to use `restart()`. -/
theorem start_active_replies_ok_counterexample :
    (storeGet pmOne.store "api").map (fun mp => mp.status) = some .running ∧
    (handleStart "api" cfgFork [some 8] 200 pmOne).1 = pmOne ∧
    (handleStart "api" cfgFork [some 8] 200 pmOne).2 =
      .ok (.msg "Started \"api\"") := by
  decide

/-- C6 (amended): `start(config)` for an already-registered name resumes
the existing worker — calling its `start()` with its original config —
when its stored status is terminal (Stopped, Crashed or Errored); in any
other state it changes no worker state, and the IPC reply to the client is
the `ok:true` success string (the `use restart()` message is only a
daemon-side log), not an error. -/
theorem start_existing_worker (cmdName : String) (cfg origCfg : WorkerConfig)
    (forkRes : List (Option Nat)) (now : Nat) (pm : PMState)
    (mp : ManagedProcess)
    (hreg : pmFind pm cfg.name = some (cfg.name, origCfg))
    (hst : storeGet pm.store cfg.name = some mp) :
    ((mp.status = .stopped ∨ mp.status = .crashed ∨ mp.status = .errored) →
      pmStart cfg forkRes now pm =
        { pm with
            store := storeSet pm.store cfg.name (startF origCfg forkRes now mp) }) ∧
    (¬(mp.status = .stopped ∨ mp.status = .crashed ∨ mp.status = .errored) →
      (handleStart cmdName cfg forkRes now pm).1 = pm ∧
      (handleStart cmdName cfg forkRes now pm).2.isOk = true) := by
  constructor
  · intro hterm
    simp [pmStart, hreg, hst, hterm]
  · intro hterm
    refine ⟨?_, rfl⟩
    simp [handleStart, pmStart, hreg, hst, hterm]

/-- Witness for C6: the stopped worker is resumed via its `start()`, and
the running worker is left untouched with a success reply. -/
theorem start_existing_worker_witness :
    (pmStart cfgFork [some 9] 300 pmStopped =
      { pmStopped with
          store := storeSet pmStopped.store "api"
            (startF cfgFork [some 9] 300 (stopF false exRunning)) }) ∧
    ((handleStart "api" cfgFork [some 8] 200 pmOne).1 = pmOne ∧
      (handleStart "api" cfgFork [some 8] 200 pmOne).2.isOk = true) :=
  ⟨(start_existing_worker "api" cfgFork cfgFork [some 9] 300 pmStopped
      (stopF false exRunning) (by decide) (by decide)).1 (by decide),
   (start_existing_worker "api" cfgFork cfgFork [some 8] 200 pmOne
      exRunning (by decide) (by decide)).2 (by decide)⟩

/-- Counterexample to C7 as stated: `stop` for a name absent from the
registry leaves the daemon untouched but the client receives the
`{ok:true, data:'Stopped "ghost"'}` success reply — `require` logs
`Worker Not Found` and returns `null` instead of raising a usage error. -/
theorem unknown_worker_stop_replies_ok_counterexample :
    pmFind pmOne "ghost" = none ∧
    (handleStop "ghost" false pmOne).1 = pmOne ∧
    (handleStop "ghost" false pmOne).2 = .ok (.msg "Stopped \"ghost\"") := by
  decide

/-- C7 (amended): `stop`, `restart`, `delete` and `stats` naming a worker
absent from the registry are daemon-side no-ops — `require`/`pmFind` logs
`Worker Not Found` and the handler proceeds — and the client receives an
`ok:true` reply (for `stats`, a successful empty list), not an error. -/
theorem unknown_worker_commands_reply_ok (n : String) (timedOut : Bool)
    (now : Nat) (usage : Option (Nat × Nat)) (pm : PMState)
    (h : pmFind pm n = none) :
    ((handleStop n timedOut pm).1 = pm ∧ (handleStop n timedOut pm).2.isOk = true) ∧
    ((handleRestart n pm).1 = pm ∧ (handleRestart n pm).2.isOk = true) ∧
    ((handleDelete n pm).1 = pm ∧ (handleDelete n pm).2.isOk = true) ∧
    ((handleStats (some n) now usage pm).1 = pm ∧
      (handleStats (some n) now usage pm).2 = .ok (.statsList [])) := by
  refine ⟨⟨?_, rfl⟩, ⟨?_, rfl⟩, ⟨?_, rfl⟩, rfl, ?_⟩
  · simp [handleStop, pmStop, h]
  · simp [handleRestart, pmRestart, h]
  · simp [handleDelete, pmDelete, h]
  · simp [handleStats, pmGetStats, h]

/-! ## Worker invariants over reachable states -/

/-- `spawnAll` never touches the restart timer. -/
theorem spawnAll_restartTimer (cfg : WorkerConfig) (forkRes : List (Option Nat))
    (now : Nat) (s : ManagedProcess) :
    (spawnAll cfg forkRes now s).restartTimer = s.restartTimer := by
  simp only [spawnAll]
  split_ifs <;> rfl

/-- `spawnAll` never touches the restart count. -/
theorem spawnAll_restartCount (cfg : WorkerConfig) (forkRes : List (Option Nat))
    (now : Nat) (s : ManagedProcess) :
    (spawnAll cfg forkRes now s).restartCount = s.restartCount := by
  simp only [spawnAll]
  split_ifs <;> rfl

/-- `spawnAll` never touches the backoff. -/
theorem spawnAll_backoffTime (cfg : WorkerConfig) (forkRes : List (Option Nat))
    (now : Nat) (s : ManagedProcess) :
    (spawnAll cfg forkRes now s).backoffTime = s.backoffTime := by
  simp only [spawnAll]
  split_ifs <;> rfl

/-- `spawnAll` never touches the restarting flag. -/
theorem spawnAll_isRestarting (cfg : WorkerConfig) (forkRes : List (Option Nat))
    (now : Nat) (s : ManagedProcess) :
    (spawnAll cfg forkRes now s).isRestarting = s.isRestarting := by
  simp only [spawnAll]
  split_ifs <;> rfl

/-- The three outcomes of `spawnAll`: script missing (Errored, children
untouched), nothing spawned (Stopped, children untouched), or success
(Running on the freshly spawned children, stability timer armed). -/
theorem spawnAll_cases (cfg : WorkerConfig) (forkRes : List (Option Nat))
    (now : Nat) (s : ManagedProcess) :
    spawnAll cfg forkRes now s = { s with status := .errored } ∨
    spawnAll cfg forkRes now s = { s with status := .stopped } ∨
    (spawnChildren cfg forkRes ≠ [] ∧
      (spawnAll cfg forkRes now s).children = spawnChildren cfg forkRes ∧
      (spawnAll cfg forkRes now s).status = .running ∧
      (spawnAll cfg forkRes now s).stabilityTimer = some STABILITY_WINDOW) := by
  simp only [spawnAll]
  split_ifs with h1 h2 h3
  · exact Or.inl rfl
  · exact Or.inr (Or.inl rfl)
  · exact Or.inr (Or.inr ⟨h2, rfl, rfl, rfl⟩)
  · exact Or.inr (Or.inr ⟨h2, rfl, rfl, rfl⟩)

/-- Normal form of `stopProbe` after `clearTimers`. -/
theorem stopProbe_clear (s : ManagedProcess) :
    stopProbeF (clearTimersF s) =
      { s with restartTimer := none
               stabilityTimer := none
               probeTimer := false
               probeFailures := if s.probeTimer then 0 else s.probeFailures } := by
  simp only [stopProbeF, clearTimersF]
  split <;> simp_all

/-- Normal form of a non-trivial `restart()`. -/
theorem restartF_eq (s : ManagedProcess) (h : s.isRestarting = false) :
    restartF s =
      { s with status := .stopping
               children := []
               restartTimer := none
               stabilityTimer := none
               probeTimer := false
               probeFailures := if s.probeTimer then 0 else s.probeFailures
               isRestarting := false } := by
  simp only [restartF, h, Bool.false_eq_true, if_false]
  rw [show clearTimersF { s with isRestarting := true, status := .stopping } =
      clearTimersF { s with isRestarting := true, status := WorkerStatus.stopping } from rfl]
  simp only [stopProbeF, clearTimersF]
  split <;> simp_all

/-- The inductive invariant of one worker's event loop: the restarting
flag is only ever set transiently inside `restart()`; an armed restart
timer implies a Crashed status and carries the worker's current counters;
and (whenever the ceiling is sensible) the backoff stays between
`INIT_BACKOFF` and `maxBackoff`. -/
def Inv (cfg : WorkerConfig) (s : ManagedProcess) : Prop :=
  s.isRestarting = false ∧
  (s.restartTimer ≠ none → s.status = .crashed) ∧
  (INIT_BACKOFF ≤ maxBackoffOf cfg →
    INIT_BACKOFF ≤ s.backoffTime ∧ s.backoffTime ≤ maxBackoffOf cfg) ∧
  (∀ rc b, s.restartTimer = some (rc, b) → rc = s.restartCount ∧ b = s.backoffTime)

theorem inv_init (cfg : WorkerConfig) : Inv cfg initStore := by
  refine ⟨rfl, ?_, ?_, ?_⟩
  · intro h
    simp [initStore] at h
  · intro h
    exact ⟨le_refl _, h⟩
  · intro rc b h
    simp [initStore] at h

theorem inv_spawnAll (cfg : WorkerConfig) (forkRes : List (Option Nat))
    (now : Nat) (s : ManagedProcess)
    (h1 : s.isRestarting = false) (h2 : s.restartTimer = none)
    (h3 : INIT_BACKOFF ≤ maxBackoffOf cfg →
      INIT_BACKOFF ≤ s.backoffTime ∧ s.backoffTime ≤ maxBackoffOf cfg) :
    Inv cfg (spawnAll cfg forkRes now s) := by
  refine ⟨?_, ?_, ?_, ?_⟩
  · rw [spawnAll_isRestarting]
    exact h1
  · intro hne
    rw [spawnAll_restartTimer] at hne
    exact absurd h2 hne
  · intro hmax
    rw [spawnAll_backoffTime]
    exact h3 hmax
  · intro rc b hsome
    rw [spawnAll_restartTimer] at hsome
    rw [h2] at hsome
    cases hsome

theorem inv_startF (cfg : WorkerConfig) (forkRes : List (Option Nat))
    (now : Nat) (s : ManagedProcess) (h : Inv cfg s) :
    Inv cfg (startF cfg forkRes now s) := by
  by_cases hact : s.status = .running ∨ s.status = .starting
  · simpa [startF, hact] using h
  · simp only [startF, if_neg hact]
    rw [stopProbe_clear]
    exact inv_spawnAll cfg forkRes now _ rfl rfl (fun hmax => ⟨le_refl _, hmax⟩)

theorem inv_stopF (cfg : WorkerConfig) (timedOut : Bool) (s : ManagedProcess)
    (h : Inv cfg s) : Inv cfg (stopF timedOut s) := by
  by_cases hs : s.status = .stopping
  · simpa [stopF, hs] using h
  · rw [stopF_eq timedOut s hs]
    exact ⟨rfl, by simp, fun hmax => h.2.2.1 hmax, by simp⟩

theorem inv_restartF (cfg : WorkerConfig) (s : ManagedProcess)
    (h : Inv cfg s) : Inv cfg (restartF s) := by
  rw [restartF_eq s h.1]
  exact ⟨rfl, by simp, fun hmax => h.2.2.1 hmax, by simp⟩

theorem inv_onChildExit (cfg : WorkerConfig) (child : Nat) (code : Option Int)
    (uptime : Nat) (forkRes : List (Option Nat)) (now : Nat)
    (s : ManagedProcess) (h : Inv cfg s) :
    Inv cfg (onChildExit cfg child code uptime forkRes now s) := by
  obtain ⟨h1, h2, h3, h4⟩ := h
  simp only [onChildExit, h1, Bool.false_eq_true, if_false]
  split_ifs with hstop hcode
  · exact ⟨rfl, fun hne => h2 hne, h3, fun rc b hsome => h4 rc b hsome⟩
  · exact ⟨rfl, fun _ => rfl, h3, fun rc b hsome => by
      simp only [scheduleRestartF, Option.some.injEq, Prod.mk.injEq] at hsome ⊢
      exact ⟨hsome.1.symm, hsome.2.symm⟩⟩
  · exact ⟨rfl, fun hne => h2 hne, h3, fun rc b hsome => h4 rc b hsome⟩

theorem inv_restartFireF (cfg : WorkerConfig) (forkRes : List (Option Nat))
    (now : Nat) (s : ManagedProcess) (h : Inv cfg s) :
    Inv cfg (restartFireF cfg forkRes now s) := by
  obtain ⟨h1, h2, h3, h4⟩ := h
  match ht : s.restartTimer with
  | none => simp only [restartFireF, ht]; exact ⟨h1, h2, h3, h4⟩
  | some (rc, b) =>
      simp only [restartFireF, ht]
      obtain ⟨hrc, hb⟩ := h4 rc b ht
      refine inv_spawnAll cfg forkRes now _ h1 rfl ?_
      intro hmax
      obtain ⟨hlo, hhi⟩ := h3 hmax
      subst hb
      constructor
      · exact le_min (le_trans hlo (Nat.le_mul_of_pos_right _ (by norm_num))) hmax
      · exact min_le_right _ _

theorem inv_stabilityFireF (cfg : WorkerConfig) (s : ManagedProcess)
    (h : Inv cfg s) : Inv cfg (stabilityFireF s) := by
  obtain ⟨h1, h2, h3, h4⟩ := h
  by_cases hrun : s.status = .running
  · have htimer : s.restartTimer = none := by
      by_contra hne
      exact absurd (h2 hne) (by simp [hrun])
    simp only [stabilityFireF, hrun, if_pos]
    refine ⟨h1, ?_, fun hmax => ⟨le_refl _, hmax⟩, ?_⟩
    · intro hne
      simp only [htimer, ne_eq, not_true_eq_false] at hne
    · intro rc b hsome
      simp only [htimer] at hsome
      cases hsome
  · simp only [stabilityFireF, if_neg hrun]
    exact ⟨h1, h2, h3, h4⟩

theorem inv_probeTickF (cfg : WorkerConfig) (alive : Bool) (s : ManagedProcess)
    (h : Inv cfg s) : Inv cfg (probeTickF cfg alive s) := by
  obtain ⟨h1, h2, h3, h4⟩ := h
  simp only [probeTickF]
  split_ifs with hpt hrun halive hfail hth
  · exact ⟨h1, h2, h3, h4⟩
  · exact ⟨h1, h2, h3, h4⟩
  · exact ⟨h1, h2, h3, h4⟩
  · exact ⟨h1, h2, h3, h4⟩
  · exact inv_restartF cfg _ ⟨h1, h2, h3, h4⟩
  · exact ⟨h1, h2, h3, h4⟩

theorem inv_step (cfg : WorkerConfig) (s t : ManagedProcess)
    (h : Inv cfg s) (hst : Step cfg s t) : Inv cfg t := by
  cases hst with
  | startCmd forkRes now s => exact inv_startF cfg forkRes now s h
  | stopCmd timedOut s => exact inv_stopF cfg timedOut s h
  | restartCmd s => exact inv_restartF cfg s h
  | childExit child code uptime forkRes now s hmem =>
      exact inv_onChildExit cfg child code uptime forkRes now s h
  | restartFire forkRes now s hne => exact inv_restartFireF cfg forkRes now s h
  | stabilityFire s hne => exact inv_stabilityFireF cfg s h
  | probeTick alive s => exact inv_probeTickF cfg alive s h

/-- Every reachable worker state satisfies the inductive invariant. -/
theorem inv_reachable (cfg : WorkerConfig) (s : ManagedProcess)
    (hr : Reachable cfg s) : Inv cfg s := by
  induction hr with
  | init => exact inv_init cfg
  | step hr hst ih => exact inv_step cfg _ _ ih hst

/-- A list with at most one element containing `c` is exactly `[c]`. -/
theorem mem_length_le_one_eq {α : Type} {l : List α} {c : α} (hm : c ∈ l)
    (hl : l.length ≤ 1) : l = [c] := by
  cases l with
  | nil => cases hm
  | cons a t =>
      cases t with
      | nil =>
          simp only [List.mem_singleton] at hm
          simp [hm]
      | cons b t2 => simp at hl

/-- `spawnAll` forks at most `resolvedInstances` children. -/
theorem spawnChildren_length_le (cfg : WorkerConfig)
    (forkRes : List (Option Nat)) :
    (spawnChildren cfg forkRes).length ≤ resolvedInstances cfg := by
  calc (spawnChildren cfg forkRes).length
      ≤ (List.range (resolvedInstances cfg)).length :=
        List.length_filterMap_le _ _
    _ = resolvedInstances cfg := List.length_range _

/-- The single-instance (fork mode) invariant: at most one child, a
non-empty children list only while Running or Stopping, and an armed
restart timer only with no children left. -/
def ForkInv (s : ManagedProcess) : Prop :=
  s.children.length ≤ 1 ∧
  (s.children ≠ [] → s.status = .running ∨ s.status = .stopping) ∧
  (s.restartTimer ≠ none → s.children = [])

theorem forkInv_of_nil {x : ManagedProcess} (h : x.children = []) : ForkInv x :=
  ⟨by simp [h], fun hne => absurd h hne, fun _ => h⟩

theorem forkInv_spawnAll (cfg : WorkerConfig) (forkRes : List (Option Nat))
    (now : Nat) (s : ManagedProcess) (hone : resolvedInstances cfg = 1)
    (hch : s.children = []) (ht : s.restartTimer = none) :
    ForkInv (spawnAll cfg forkRes now s) := by
  rcases spawnAll_cases cfg forkRes now s with heq | heq | ⟨hne, hchild, hrun, _⟩
  · exact forkInv_of_nil (by rw [heq]; exact hch)
  · exact forkInv_of_nil (by rw [heq]; exact hch)
  · refine ⟨?_, fun _ => Or.inl hrun, ?_⟩
    · rw [hchild]
      exact hone ▸ spawnChildren_length_le cfg forkRes
    · intro habs
      rw [spawnAll_restartTimer, ht] at habs
      exact absurd rfl habs

theorem forkInv_startF (cfg : WorkerConfig) (forkRes : List (Option Nat))
    (now : Nat) (s : ManagedProcess) (hone : resolvedInstances cfg = 1)
    (hF : ForkInv s) : ForkInv (startF cfg forkRes now s) := by
  by_cases hact : s.status = .running ∨ s.status = .starting
  · simpa [startF, hact] using hF
  · simp only [startF, if_neg hact]
    rw [stopProbe_clear]
    exact forkInv_spawnAll cfg forkRes now _ hone rfl rfl

theorem forkInv_stopF (timedOut : Bool) (s : ManagedProcess)
    (hF : ForkInv s) : ForkInv (stopF timedOut s) := by
  by_cases hs : s.status = .stopping
  · simpa [stopF, hs] using hF
  · rw [stopF_eq timedOut s hs]
    exact forkInv_of_nil rfl

theorem forkInv_restartF (s : ManagedProcess) (hF : ForkInv s) :
    ForkInv (restartF s) := by
  by_cases hr : s.isRestarting = true
  · simpa [restartF, hr] using hF
  · rw [restartF_eq s (by simpa using hr)]
    exact forkInv_of_nil rfl

theorem forkInv_onChildExit (cfg : WorkerConfig) (child : Nat)
    (code : Option Int) (uptime : Nat) (forkRes : List (Option Nat))
    (now : Nat) (s : ManagedProcess) (hmem : child ∈ s.children)
    (hInv : Inv cfg s) (hF : ForkInv s) :
    ForkInv (onChildExit cfg child code uptime forkRes now s) := by
  obtain ⟨hl, _, ht3⟩ := hF
  have hsing : s.children = [child] := mem_length_le_one_eq hmem hl
  have hrem : s.children.filter (fun c => c ≠ child) = [] := by
    rw [hsing]
    simp
  simp only [onChildExit, hInv.1, Bool.false_eq_true, if_false, hrem]
  split_ifs with hstop hcode
  · exact forkInv_of_nil rfl
  · exact forkInv_of_nil rfl
  · exact forkInv_of_nil rfl

theorem forkInv_restartFireF (cfg : WorkerConfig) (forkRes : List (Option Nat))
    (now : Nat) (s : ManagedProcess) (hone : resolvedInstances cfg = 1)
    (hF : ForkInv s) : ForkInv (restartFireF cfg forkRes now s) := by
  match ht : s.restartTimer with
  | none => simpa [restartFireF, ht] using hF
  | some (rc, b) =>
      have hnil : s.children = [] := hF.2.2 (by simp [ht])
      simp only [restartFireF, ht]
      exact forkInv_spawnAll cfg forkRes now _ hone hnil rfl

theorem forkInv_stabilityFireF (s : ManagedProcess) (hF : ForkInv s) :
    ForkInv (stabilityFireF s) := by
  obtain ⟨hl, himp, ht3⟩ := hF
  simp only [stabilityFireF]
  split_ifs with hrun
  · exact ⟨hl, fun hne => himp hne, fun hne => ht3 hne⟩
  · exact ⟨hl, fun hne => himp hne, fun hne => ht3 hne⟩

theorem forkInv_probeTickF (cfg : WorkerConfig) (alive : Bool)
    (s : ManagedProcess) (hInv : Inv cfg s) (hF : ForkInv s) :
    ForkInv (probeTickF cfg alive s) := by
  obtain ⟨hl, himp, ht3⟩ := hF
  simp only [probeTickF]
  split_ifs with hpt hrun halive hfail hth
  · exact ⟨hl, himp, ht3⟩
  · exact ⟨hl, himp, ht3⟩
  · exact ⟨hl, fun hne => himp hne, fun hne => ht3 hne⟩
  · exact ⟨hl, himp, ht3⟩
  · rw [restartF_eq _ (by simpa using hInv.1)]
    exact forkInv_of_nil rfl
  · exact ⟨hl, fun hne => himp hne, fun hne => ht3 hne⟩

theorem forkInv_step (cfg : WorkerConfig) (s t : ManagedProcess)
    (hone : resolvedInstances cfg = 1) (hInv : Inv cfg s) (hF : ForkInv s)
    (hst : Step cfg s t) : ForkInv t := by
  cases hst with
  | startCmd forkRes now s => exact forkInv_startF cfg forkRes now s hone hF
  | stopCmd timedOut s => exact forkInv_stopF timedOut s hF
  | restartCmd s => exact forkInv_restartF s hF
  | childExit child code uptime forkRes now s hmem =>
      exact forkInv_onChildExit cfg child code uptime forkRes now s hmem hInv hF
  | restartFire forkRes now s hne =>
      exact forkInv_restartFireF cfg forkRes now s hone hF
  | stabilityFire s hne => exact forkInv_stabilityFireF s hF
  | probeTick alive s => exact forkInv_probeTickF cfg alive s hInv hF

/-- Every reachable state of a single-instance worker satisfies the
fork-mode invariant. -/
theorem forkInv_reachable (cfg : WorkerConfig) (s : ManagedProcess)
    (hone : resolvedInstances cfg = 1) (hr : Reachable cfg s) : ForkInv s := by
  induction hr with
  | init => exact forkInv_of_nil rfl
  | step hr hst ih => exact forkInv_step cfg _ _ hone (inv_reachable cfg _ hr) ih hst

/-- The cluster worker after a successful two-instance `start`. -/
def exClusterRunning : ManagedProcess :=
  startF cfgCluster [some 10, some 11] 0 initStore

/-- `exClusterRunning` after child 10 exits with code 1 while child 11
lives on. -/
def exClusterCrashed : ManagedProcess :=
  onChildExit cfgCluster 10 (some 1) 2000 [] 0 exClusterRunning

/-- The fork worker after its only child exits cleanly (code 0): the
children list empties but the status stays Running. -/
def exCleanExit : ManagedProcess :=
  onChildExit cfgFork 7 (some 0) 2000 [] 0 exRunning

/-- Counterexample to C1 as stated.  In cluster mode with two instances, a
non-zero exit of one child reaches a state whose status is Crashed while
the sibling is still in the children list — so `children ≠ ∅` does not
imply a Running/Stopping status and `onChildExit` sets Crashed with a
child remaining.  And after a clean (code 0) exit the fork worker has
`children = ∅` with status still Running — so empty children do not imply
a status in {Stopped, Crashed, Errored, Starting}: both directions of the
claimed equivalence fail. -/
theorem cluster_crash_keeps_sibling_counterexample :
    (Reachable cfgCluster exClusterCrashed ∧
      exClusterCrashed.children = [11] ∧
      exClusterCrashed.status = .crashed ∧
      ¬(exClusterCrashed.status = .running ∨ exClusterCrashed.status = .stopping)) ∧
    (Reachable cfgFork exCleanExit ∧
      exCleanExit.children = [] ∧
      exCleanExit.status = .running) := by
  refine ⟨⟨?_, by decide, by decide, by decide⟩, ⟨?_, by decide, by decide⟩⟩
  · exact Reachable.step
      (Reachable.step Reachable.init (Step.startCmd [some 10, some 11] 0 initStore))
      (Step.childExit 10 (some 1) 2000 [] 0 exClusterRunning (by decide))
  · exact Reachable.step exRunning_reachable
      (Step.childExit 7 (some 0) 2000 [] 0 exRunning (by decide))

/-- C1 (amended): for single-instance (fork mode) workers the invariant
holds in the direction the code supports: whenever `children` is
non-empty the status is Running or Stopping, and in particular whenever
the status is Crashed (as set by `onChildExit`) no child remains in the
list. -/
theorem fork_children_status_invariant (cfg : WorkerConfig)
    (s : ManagedProcess) (hfork : cfg.mode = .fork) (hr : Reachable cfg s) :
    (s.children ≠ [] → s.status = .running ∨ s.status = .stopping) ∧
    (s.status = .crashed → s.children = []) := by
  have hone : resolvedInstances cfg = 1 := by
    simp [resolvedInstances, hfork]
  obtain ⟨_, himp, _⟩ := forkInv_reachable cfg s hone hr
  refine ⟨himp, ?_⟩
  intro hc
  by_contra hne
  rcases himp hne with h | h <;> rw [h] at hc <;> cases hc

/-- Witness for C1 (amended) at the concrete running fork worker. -/
theorem fork_children_status_invariant_witness :
    (exRunning.children ≠ [] →
      exRunning.status = .running ∨ exRunning.status = .stopping) ∧
    (exRunning.status = .crashed → exRunning.children = []) :=
  fork_children_status_invariant cfgFork exRunning rfl exRunning_reachable

/-- A probe tick never moves a worker into Running: it leaves the status
alone except when the failure threshold triggers `restart()`. -/
theorem probeTickF_status (cfg : WorkerConfig) (alive : Bool)
    (s : ManagedProcess) :
    (probeTickF cfg alive s).status = s.status ∨
    (probeTickF cfg alive s).status = .stopping := by
  simp only [probeTickF]
  split_ifs with hpt hrun halive hfail hth
  · exact Or.inl rfl
  · exact Or.inl rfl
  · exact Or.inl rfl
  · exact Or.inl rfl
  · by_cases hrr : s.isRestarting = true
    · left
      simp [restartF, hrr]
    · right
      rw [restartF_eq _ (by simpa using hrr)]
  · exact Or.inl rfl

/-- A `spawnAll` that ends Running armed the stability timer. -/
theorem spawnAll_running_stab (cfg : WorkerConfig) (forkRes : List (Option Nat))
    (now : Nat) (s : ManagedProcess)
    (h : (spawnAll cfg forkRes now s).status = .running) :
    (spawnAll cfg forkRes now s).stabilityTimer = some STABILITY_WINDOW := by
  rcases spawnAll_cases cfg forkRes now s with heq | heq | ⟨_, _, _, hstab⟩
  · rw [heq] at h
    cases h
  · rw [heq] at h
    cases h
  · exact hstab

theorem step_into_running_arms_stability (cfg : WorkerConfig)
    (s t : ManagedProcess) (hst : Step cfg s t) (h1 : s.status ≠ .running)
    (h2 : t.status = .running) :
    t.stabilityTimer = some STABILITY_WINDOW := by
  cases hst with
  | startCmd forkRes now s =>
      by_cases hact : s.status = .running ∨ s.status = .starting
      · have : startF cfg forkRes now s = s := by simp [startF, hact]
        rw [this] at h2
        exact absurd h2 h1
      · simp only [startF, if_neg hact] at h2 ⊢
        exact spawnAll_running_stab _ _ _ _ h2
  | stopCmd timedOut s =>
      by_cases hs : s.status = .stopping
      · have : stopF timedOut s = s := by simp [stopF, hs]
        rw [this] at h2
        exact absurd h2 h1
      · rw [stopF_eq timedOut s hs] at h2
        cases h2
  | restartCmd s =>
      by_cases hrr : s.isRestarting = true
      · have : restartF s = s := by simp [restartF, hrr]
        rw [this] at h2
        exact absurd h2 h1
      · rw [restartF_eq s (by simpa using hrr)] at h2
        cases h2
  | childExit child code uptime forkRes now s hmem =>
      simp only [onChildExit] at h2 ⊢
      split_ifs at h2 ⊢ with hstop hrest hrem hcode
      · exact absurd h2 h1
      · exact spawnAll_running_stab _ _ _ _ h2
      · exact absurd h2 h1
      · cases h2
      · exact absurd h2 h1
  | restartFire forkRes now s hne =>
      match ht : s.restartTimer with
      | none =>
          simp only [restartFireF, ht] at h2 ⊢
          exact absurd h2 h1
      | some (rc, b) =>
          simp only [restartFireF, ht] at h2 ⊢
          exact spawnAll_running_stab _ _ _ _ h2
  | stabilityFire s hne =>
      simp only [stabilityFireF] at h2 ⊢
      split_ifs at h2 ⊢ with hrun
      · exact absurd hrun h1
      · exact absurd h2 h1
  | probeTick alive s =>
      rcases probeTickF_status cfg alive s with h | h
      · rw [h] at h2
        exact absurd h2 h1
      · rw [h] at h2
        cases h2

/-- C5: a step that takes the worker into Running arms the stability
timer for `STABILITY_WINDOW` (= 5000) ms; when it fires while still
Running, backoff and restart count reset to 1000 ms and 0; when it fires
in any other status, both fields are left unchanged. -/
theorem stability_window_behaviour (cfg : WorkerConfig) :
    STABILITY_WINDOW = 5000 ∧
    (∀ s t, Step cfg s t → s.status ≠ .running → t.status = .running →
      t.stabilityTimer = some STABILITY_WINDOW) ∧
    (∀ s, s.status = .running →
      (stabilityFireF s).backoffTime = INIT_BACKOFF ∧
      (stabilityFireF s).restartCount = 0) ∧
    (∀ s, s.status ≠ .running →
      (stabilityFireF s).backoffTime = s.backoffTime ∧
      (stabilityFireF s).restartCount = s.restartCount) := by
  refine ⟨rfl,
    fun s t hst ha hb => step_into_running_arms_stability cfg s t hst ha hb,
    ?_, ?_⟩
  · intro s hrun
    simp [stabilityFireF, hrun]
  · intro s hrun
    simp [stabilityFireF, hrun]

/-- Witness for C5: the concrete start arms the 5000 ms stability timer;
its firing while Running resets the counters, and firing after the crash
leaves them alone. -/
theorem stability_window_behaviour_witness :
    exRunning.stabilityTimer = some STABILITY_WINDOW ∧
    ((stabilityFireF exRunning).backoffTime = INIT_BACKOFF ∧
      (stabilityFireF exRunning).restartCount = 0) ∧
    ((stabilityFireF exCrashed).backoffTime = exCrashed.backoffTime ∧
      (stabilityFireF exCrashed).restartCount = exCrashed.restartCount) :=
  ⟨(stability_window_behaviour cfgFork).2.1 initStore exRunning
      (Step.startCmd [some 7] 100 initStore) (by decide) (by decide),
   (stability_window_behaviour cfgFork).2.2.1 exRunning (by decide),
   (stability_window_behaviour cfgFork).2.2.2 exCrashed (by decide)⟩

/-- Witness for C7: the unknown name `"ghost"` against the one-worker
daemon. -/
theorem unknown_worker_commands_reply_ok_witness :
    ((handleStop "ghost" true pmOne).1 = pmOne ∧
      (handleStop "ghost" true pmOne).2.isOk = true) ∧
    ((handleRestart "ghost" pmOne).1 = pmOne ∧
      (handleRestart "ghost" pmOne).2.isOk = true) ∧
    ((handleDelete "ghost" pmOne).1 = pmOne ∧
      (handleDelete "ghost" pmOne).2.isOk = true) ∧
    ((handleStats (some "ghost") 5 none pmOne).1 = pmOne ∧
      (handleStats (some "ghost") 5 none pmOne).2 = .ok (.statsList [])) :=
  unknown_worker_commands_reply_ok "ghost" true 5 none pmOne (by decide)

/-! ## Refined semantics: every armed restart timeout, stale ones included

`scheduleRestart` arms a `setTimeout` and stores its handle with
`this.patch({restartTimer})`; the previous handle is merely overwritten,
never passed to `clearTimeout`, so an already-armed timeout keeps pending
and still fires with its own stale closure.  `clearTimers` cancels only
the handle currently stored.  The refinement below therefore carries,
next to the store record, the full list of armed-but-unfired restart
timeouts (each with the id of its handle and the `(restartCount,
backoffTime)` pair its callback closed over) and the id the store's
`restartTimer` field holds. -/

/-- One armed `setTimeout` from `scheduleRestart`: its handle id and the
values its callback captured. -/
structure TimerEntry where
  id : Nat
  capturedCount : Nat
  capturedBackoff : Nat
deriving DecidableEq, Repr

/-- A worker together with its armed restart timeouts.  `tracked` is the
id held by the store's `restartTimer` field (the only one `clearTimers`
can cancel); `pending` lists every armed, not-yet-fired timeout. -/
structure WorkerRun where
  mp : ManagedProcess
  pending : List TimerEntry
  tracked : Option Nat
  nextId : Nat
deriving DecidableEq, Repr

/-- The fresh worker: no timeout armed. -/
def initRun : WorkerRun :=
  { mp := initStore, pending := [], tracked := none, nextId := 0 }

/-- `clearTimeout(restartTimer)`: cancels the tracked handle if it is
still pending; a stale (overwritten) or already-fired handle is
unaffected. -/
def cancelTracked (w : WorkerRun) : List TimerEntry :=
  match w.tracked with
  | none => w.pending
  | some i => w.pending.filter (fun e => e.id ≠ i)

/-- The body of the closure `scheduleRestart` arms (worker.ts lines
493-499): patch the captured `restartCount + 1` and doubled captured
backoff (capped at `maxBackoff`), then `spawnAll`.  This is what ANY
firing runs, whether the store still tracks its handle or not. -/
def restartTimerCallback (cfg : WorkerConfig) (capturedCount capturedBackoff : Nat)
    (forkRes : List (Option Nat)) (now : Nat) (s : ManagedProcess) :
    ManagedProcess :=
  spawnAll cfg forkRes now
    { s with restartCount := capturedCount + 1
             backoffTime := min (capturedBackoff * 2) (maxBackoffOf cfg) }

/-- `start()` in the refined semantics: on the non-trivial path its
`clearTimers` cancels the tracked timeout. -/
def runStart (cfg : WorkerConfig) (forkRes : List (Option Nat)) (now : Nat)
    (w : WorkerRun) : WorkerRun :=
  if w.mp.status = .running ∨ w.mp.status = .starting then w
  else
    { w with mp := startF cfg forkRes now w.mp
             pending := cancelTracked w
             tracked := none }

/-- `stop()` in the refined semantics. -/
def runStop (timedOut : Bool) (w : WorkerRun) : WorkerRun :=
  if w.mp.status = .stopping then w
  else
    { w with mp := stopF timedOut w.mp
             pending := cancelTracked w
             tracked := none }

/-- `restart()` in the refined semantics. -/
def runRestart (w : WorkerRun) : WorkerRun :=
  if w.mp.isRestarting then w
  else
    { w with mp := restartF w.mp
             pending := cancelTracked w
             tracked := none }

/-- A child exit in the refined semantics.  Exactly when `onChildExit`
reaches `scheduleRestart`, a fresh timeout is armed and its handle stored;
a previously pending timeout stays pending (stale). -/
def runChildExit (cfg : WorkerConfig) (child : Nat) (code : Option Int)
    (uptime : Nat) (forkRes : List (Option Nat)) (now : Nat)
    (w : WorkerRun) : WorkerRun :=
  let mp1 := onChildExit cfg child code uptime forkRes now w.mp
  if w.mp.status ≠ .stopping ∧ w.mp.isRestarting = false ∧
      code ≠ some 0 ∧ code ≠ none then
    { mp := mp1
      pending := { id := w.nextId
                   capturedCount := w.mp.restartCount
                   capturedBackoff := w.mp.backoffTime } :: w.pending
      tracked := some w.nextId
      nextId := w.nextId + 1 }
  else { w with mp := mp1 }

/-- An armed timeout fires: it leaves the pending list and its callback
runs on the current state.  The store's `restartTimer` field is not
touched by the callback (and a later `clearTimeout` on a fired handle is
a no-op, which `cancelTracked` models since the id is gone from
`pending`). -/
def runRestartFire (cfg : WorkerConfig) (e : TimerEntry)
    (forkRes : List (Option Nat)) (now : Nat) (w : WorkerRun) : WorkerRun :=
  { w with mp := restartTimerCallback cfg e.capturedCount e.capturedBackoff forkRes now w.mp
           pending := w.pending.filter (fun x => x.id ≠ e.id) }

/-- A stability-window firing in the refined semantics: the callback only
patches counters, no restart timeout is touched. -/
def runStabilityFire (w : WorkerRun) : WorkerRun :=
  { w with mp := stabilityFireF w.mp }

/-- A probe tick in the refined semantics: when the failure threshold
invokes `restart()`, its `clearTimers` cancels the tracked timeout. -/
def runProbeTick (cfg : WorkerConfig) (alive : Bool) (w : WorkerRun) :
    WorkerRun :=
  if w.mp.probeTimer = false then w
  else if w.mp.status ≠ .running then w
  else if alive then { w with mp := probeTickF cfg alive w.mp }
  else if w.mp.probeFailures + 1 ≥ cfg.probeFailureThreshold.getD 3 then
    if w.mp.isRestarting then { w with mp := probeTickF cfg alive w.mp }
    else
      { w with mp := probeTickF cfg alive w.mp
               pending := cancelTracked w
               tracked := none }
  else { w with mp := probeTickF cfg alive w.mp }

/-- One event of the refined per-worker event loop; any pending timeout —
tracked or stale — may fire. -/
inductive RStep (cfg : WorkerConfig) : WorkerRun → WorkerRun → Prop
  | startCmd (forkRes : List (Option Nat)) (now : Nat) (w : WorkerRun) :
      RStep cfg w (runStart cfg forkRes now w)
  | stopCmd (timedOut : Bool) (w : WorkerRun) :
      RStep cfg w (runStop timedOut w)
  | restartCmd (w : WorkerRun) :
      RStep cfg w (runRestart w)
  | childExit (child : Nat) (code : Option Int) (uptime : Nat)
      (forkRes : List (Option Nat)) (now : Nat) (w : WorkerRun)
      (h : child ∈ w.mp.children) :
      RStep cfg w (runChildExit cfg child code uptime forkRes now w)
  | restartFire (e : TimerEntry) (forkRes : List (Option Nat)) (now : Nat)
      (w : WorkerRun) (h : e ∈ w.pending) :
      RStep cfg w (runRestartFire cfg e forkRes now w)
  | stabilityFire (w : WorkerRun) (h : w.mp.stabilityTimer ≠ none) :
      RStep cfg w (runStabilityFire w)
  | probeTick (alive : Bool) (w : WorkerRun) :
      RStep cfg w (runProbeTick cfg alive w)

/-- Refined reachability from the fresh worker. -/
inductive RReachable (cfg : WorkerConfig) : WorkerRun → Prop
  | init : RReachable cfg initRun
  | step {w v : WorkerRun} :
      RReachable cfg w → RStep cfg w v → RReachable cfg v

/-- The two-instance cluster worker after `start`: Running on 10 and 11. -/
def wCluster1 : WorkerRun := runStart cfgCluster [some 10, some 11] 0 initRun

/-- Child 10 crashes: timeout 0 armed with capture `(0, 1000)`. -/
def wCluster2 : WorkerRun :=
  runChildExit cfgCluster 10 (some 1) 2000 [] 0 wCluster1

/-- Child 11 also crashes: timeout 1 armed with the same capture; the
store's handle is overwritten, timeout 0 is now stale but still pending. -/
def wCluster3 : WorkerRun :=
  runChildExit cfgCluster 11 (some 1) 2100 [] 0 wCluster2

/-- Timeout 1 fires: `restartCount` 0 → 1, backoff 1000 → 2000, respawn;
stale timeout 0 is still pending. -/
def wCluster4 : WorkerRun :=
  runRestartFire cfgCluster { id := 1, capturedCount := 0, capturedBackoff := 1000 }
    [some 12] 5 wCluster3

example : wCluster3.pending =
    [{ id := 1, capturedCount := 0, capturedBackoff := 1000 },
     { id := 0, capturedCount := 0, capturedBackoff := 1000 }] := by decide

example : wCluster4.mp.restartCount = 1 ∧ wCluster4.mp.backoffTime = 2000 ∧
    wCluster4.mp.status = .running ∧
    wCluster4.pending = [{ id := 0, capturedCount := 0, capturedBackoff := 1000 }] := by
  decide

/-- The fork worker in the refined semantics after `start`. -/
def wFork1 : WorkerRun := runStart cfgFork [some 7] 100 initRun

/-- Its child crashes: one timeout pending, capture `(0, 1000)`. -/
def wFork2 : WorkerRun := runChildExit cfgFork 7 (some 1) 2000 [] 0 wFork1

example : wFork2.mp = exCrashed ∧
    wFork2.pending = [{ id := 0, capturedCount := 0, capturedBackoff := 1000 }] := by
  decide

theorem wCluster4_reachable : RReachable cfgCluster wCluster4 :=
  RReachable.step
    (RReachable.step
      (RReachable.step
        (RReachable.step RReachable.init
          (RStep.startCmd [some 10, some 11] 0 initRun))
        (RStep.childExit 10 (some 1) 2000 [] 0 wCluster1 (by decide)))
      (RStep.childExit 11 (some 1) 2100 [] 0 wCluster2 (by decide)))
    (RStep.restartFire { id := 1, capturedCount := 0, capturedBackoff := 1000 }
      [some 12] 5 wCluster3 (by decide))

theorem wFork2_reachable : RReachable cfgFork wFork2 :=
  RReachable.step
    (RReachable.step RReachable.init (RStep.startCmd [some 7] 100 initRun))
    (RStep.childExit 7 (some 1) 2000 [] 0 wFork1 (by decide))

/-- Filtering away an id shared by every element empties the list. -/
theorem filter_id_eq_nil {l : List TimerEntry} {i : Nat}
    (h : ∀ e ∈ l, e.id = i) : l.filter (fun e => e.id ≠ i) = [] := by
  induction l with
  | nil => rfl
  | cons a t ih =>
      have ha : a.id = i := h a (List.mem_cons_self a t)
      have ht : ∀ e ∈ t, e.id = i := fun e he => h e (List.mem_cons_of_mem a he)
      have hfa : (fun e : TimerEntry => decide (e.id ≠ i)) a = false := by simp [ha]
      simp only [List.filter, hfa]
      exact ih ht

/-- `clearTimeout` empties the pending list when every pending timeout is
the tracked one. -/
theorem cancelTracked_nil (w : WorkerRun)
    (h : ∀ e ∈ w.pending, w.tracked = some e.id) : cancelTracked w = [] := by
  rcases ht : w.tracked with _ | i
  · rcases hp : w.pending with _ | ⟨a, t⟩
    · simp [cancelTracked, ht, hp]
    · have hha := h a (by rw [hp]; exact List.mem_cons_self a t)
      rw [ht] at hha
      cases hha
  · simp only [cancelTracked, ht]
    refine filter_id_eq_nil ?_
    intro e he
    have hha := h e he
    rw [ht] at hha
    exact (Option.some.injEq _ _ ▸ hha).symm

/-- `clearTimeout` on an empty pending list. -/
theorem cancelTracked_of_nil (w : WorkerRun) (h : w.pending = []) :
    cancelTracked w = [] := by
  rcases ht : w.tracked with _ | i <;> simp [cancelTracked, ht, h]

/-- Field effects of a non-trivial `start()`. -/
theorem startF_fields (cfg : WorkerConfig) (forkRes : List (Option Nat))
    (now : Nat) (s : ManagedProcess)
    (h : ¬(s.status = .running ∨ s.status = .starting)) :
    (startF cfg forkRes now s).isRestarting = false ∧
    (startF cfg forkRes now s).restartCount = 0 ∧
    (startF cfg forkRes now s).backoffTime = INIT_BACKOFF ∧
    (startF cfg forkRes now s).children.length ≤ resolvedInstances cfg := by
  simp only [startF, if_neg h]
  rw [stopProbe_clear]
  refine ⟨?_, ?_, ?_, ?_⟩
  · rw [spawnAll_isRestarting]
  · rw [spawnAll_restartCount]
  · rw [spawnAll_backoffTime]
  · rcases spawnAll_cases cfg forkRes now _ with heq | heq | ⟨_, hchild, _, _⟩
    · rw [heq]
      exact Nat.zero_le _
    · rw [heq]
      exact Nat.zero_le _
    · rw [hchild]
      exact spawnChildren_length_le cfg forkRes

/-- `spawnAll` from an empty children list forks at most
`resolvedInstances` children. -/
theorem spawnAll_children_length (cfg : WorkerConfig)
    (forkRes : List (Option Nat)) (now : Nat) (s : ManagedProcess)
    (hch : s.children = []) :
    (spawnAll cfg forkRes now s).children.length ≤ resolvedInstances cfg := by
  rcases spawnAll_cases cfg forkRes now s with heq | heq | ⟨_, hchild, _, _⟩
  · rw [heq]
    simp [hch]
  · rw [heq]
    simp [hch]
  · rw [hchild]
    exact spawnChildren_length_le cfg forkRes

/-- The exact shape of a crashing child exit. -/
theorem onChildExit_crash (cfg : WorkerConfig) (child : Nat)
    (code : Option Int) (uptime : Nat) (forkRes : List (Option Nat))
    (now : Nat) (s : ManagedProcess)
    (hstop : s.status ≠ .stopping) (hrest : s.isRestarting = false)
    (hcode : code ≠ some 0 ∧ code ≠ none) :
    onChildExit cfg child code uptime forkRes now s =
      scheduleRestartF
        { s with children := s.children.filter (fun c => c ≠ child)
                 status := .crashed } := by
  simp only [onChildExit, if_neg hstop, hrest, Bool.false_eq_true, if_false,
    if_pos hcode]

/-- Field effects of a single-instance child exit. -/
theorem onChildExit_fields (cfg : WorkerConfig) (child : Nat)
    (code : Option Int) (uptime : Nat) (forkRes : List (Option Nat))
    (now : Nat) (s : ManagedProcess) (hmem : child ∈ s.children)
    (hlen : s.children.length ≤ 1) (hrest : s.isRestarting = false) :
    (onChildExit cfg child code uptime forkRes now s).children = [] ∧
    (onChildExit cfg child code uptime forkRes now s).isRestarting = false ∧
    (onChildExit cfg child code uptime forkRes now s).restartCount = s.restartCount ∧
    (onChildExit cfg child code uptime forkRes now s).backoffTime = s.backoffTime := by
  have hsing : s.children = [child] := mem_length_le_one_eq hmem hlen
  have hrem : s.children.filter (fun c => c ≠ child) = [] := by
    rw [hsing]
    simp
  simp only [onChildExit, hrest, Bool.false_eq_true, if_false, hrem]
  split_ifs with hstop hcode
  · exact ⟨rfl, rfl, rfl, rfl⟩
  · exact ⟨rfl, rfl, rfl, rfl⟩
  · exact ⟨rfl, rfl, rfl, rfl⟩

/-- Field effects of a probe tick when the worker is not restarting. -/
theorem probeTickF_fields (cfg : WorkerConfig) (alive : Bool)
    (s : ManagedProcess) (hrest : s.isRestarting = false) :
    (probeTickF cfg alive s).isRestarting = false ∧
    (probeTickF cfg alive s).restartCount = s.restartCount ∧
    (probeTickF cfg alive s).backoffTime = s.backoffTime ∧
    (probeTickF cfg alive s).children.length ≤ s.children.length := by
  simp only [probeTickF]
  split_ifs with h1 h2 h3 h4 h5
  · exact ⟨hrest, rfl, rfl, le_refl _⟩
  · exact ⟨hrest, rfl, rfl, le_refl _⟩
  · exact ⟨hrest, rfl, rfl, le_refl _⟩
  · exact ⟨hrest, rfl, rfl, le_refl _⟩
  · rw [restartF_eq { s with probeFailures := 0 } hrest]
    exact ⟨rfl, rfl, rfl, Nat.zero_le _⟩
  · exact ⟨hrest, rfl, rfl, le_refl _⟩

/-- The inductive invariant of the refined fork-mode event loop: the
worker is never left mid-restart, at most one child and at most one
armed restart timeout exist, the pending timeout (when present) is the
tracked one, exists only with no children and a Crashed status, and its
capture equals the worker's current counters; the backoff respects its
bounds whenever the ceiling is at least the initial backoff. -/
def RInv (cfg : WorkerConfig) (w : WorkerRun) : Prop :=
  w.mp.isRestarting = false ∧
  w.mp.children.length ≤ 1 ∧
  w.pending.length ≤ 1 ∧
  (∀ e ∈ w.pending,
    w.mp.children = [] ∧ w.mp.status = .crashed ∧ w.tracked = some e.id ∧
    e.capturedCount = w.mp.restartCount ∧ e.capturedBackoff = w.mp.backoffTime) ∧
  (INIT_BACKOFF ≤ maxBackoffOf cfg →
    INIT_BACKOFF ≤ w.mp.backoffTime ∧ w.mp.backoffTime ≤ maxBackoffOf cfg)

theorem rinv_init (cfg : WorkerConfig) : RInv cfg initRun := by
  refine ⟨rfl, by simp [initRun, initStore], by simp [initRun], ?_, ?_⟩
  · intro e he
    simp [initRun] at he
  · intro h
    exact ⟨le_refl _, h⟩

theorem rinv_runStart (cfg : WorkerConfig) (forkRes : List (Option Nat))
    (now : Nat) (w : WorkerRun) (hone : resolvedInstances cfg = 1)
    (h : RInv cfg w) : RInv cfg (runStart cfg forkRes now w) := by
  obtain ⟨h1, h2, h3, h4, h5⟩ := h
  by_cases hact : w.mp.status = .running ∨ w.mp.status = .starting
  · simpa [runStart, hact] using ⟨h1, h2, h3, h4, h5⟩
  · have hnil : cancelTracked w = [] :=
      cancelTracked_nil w (fun e he => (h4 e he).2.2.1)
    obtain ⟨f1, f2, f3, f4⟩ := startF_fields cfg forkRes now w.mp hact
    simp only [runStart, if_neg hact]
    rw [hnil]
    refine ⟨f1, le_trans f4 (le_of_eq hone), by simp, ?_, ?_⟩
    · intro e he
      simp at he
    · intro hmax
      rw [f3]
      exact ⟨le_refl _, hmax⟩

theorem rinv_runStop (cfg : WorkerConfig) (timedOut : Bool) (w : WorkerRun)
    (h : RInv cfg w) : RInv cfg (runStop timedOut w) := by
  obtain ⟨h1, h2, h3, h4, h5⟩ := h
  by_cases hs : w.mp.status = .stopping
  · simpa [runStop, hs] using ⟨h1, h2, h3, h4, h5⟩
  · have hnil : cancelTracked w = [] :=
      cancelTracked_nil w (fun e he => (h4 e he).2.2.1)
    simp only [runStop, if_neg hs]
    rw [hnil, stopF_eq timedOut w.mp hs]
    refine ⟨rfl, by simp, by simp, ?_, ?_⟩
    · intro e he
      simp at he
    · intro hmax
      exact h5 hmax

theorem rinv_runRestart (cfg : WorkerConfig) (w : WorkerRun)
    (h : RInv cfg w) : RInv cfg (runRestart w) := by
  obtain ⟨h1, h2, h3, h4, h5⟩ := h
  have hnil : cancelTracked w = [] :=
    cancelTracked_nil w (fun e he => (h4 e he).2.2.1)
  simp only [runRestart, h1, Bool.false_eq_true, if_false]
  rw [hnil, restartF_eq w.mp h1]
  refine ⟨rfl, by simp, by simp, ?_, ?_⟩
  · intro e he
    simp at he
  · intro hmax
    exact h5 hmax

theorem rinv_runChildExit (cfg : WorkerConfig) (child : Nat)
    (code : Option Int) (uptime : Nat) (forkRes : List (Option Nat))
    (now : Nat) (w : WorkerRun) (hone : resolvedInstances cfg = 1)
    (hmem : child ∈ w.mp.children) (h : RInv cfg w) :
    RInv cfg (runChildExit cfg child code uptime forkRes now w) := by
  obtain ⟨h1, h2, h3, h4, h5⟩ := h
  have hnp : w.pending = [] := by
    cases hp : w.pending with
    | nil => rfl
    | cons a t =>
        have hc := (h4 a (by rw [hp]; exact List.mem_cons_self a t)).1
        rw [hc] at hmem
        cases hmem
  have hsing : w.mp.children = [child] := mem_length_le_one_eq hmem h2
  have hrem : w.mp.children.filter (fun c => c ≠ child) = [] := by
    rw [hsing]
    simp
  simp only [runChildExit]
  split_ifs with hcr
  · obtain ⟨hstop, hrest, hc1, hc2⟩ := hcr
    rw [onChildExit_crash cfg child code uptime forkRes now w.mp hstop hrest
      ⟨hc1, hc2⟩, hrem, hnp]
    refine ⟨hrest, by simp [scheduleRestartF], by simp, ?_, ?_⟩
    · intro e he
      simp only [List.mem_singleton] at he
      subst he
      exact ⟨rfl, rfl, rfl, rfl, rfl⟩
    · intro hmax
      exact h5 hmax
  · rw [hnp]
    obtain ⟨f1, f2, f3, f4⟩ :=
      onChildExit_fields cfg child code uptime forkRes now w.mp hmem h2 h1
    refine ⟨f2, ?_, by simp, ?_, ?_⟩
    · rw [f1]
      simp
    · intro e he
      simp at he
    · intro hmax
      rw [f4]
      exact h5 hmax

theorem rinv_runRestartFire (cfg : WorkerConfig) (e : TimerEntry)
    (forkRes : List (Option Nat)) (now : Nat) (w : WorkerRun)
    (hone : resolvedInstances cfg = 1) (he : e ∈ w.pending)
    (h : RInv cfg w) : RInv cfg (runRestartFire cfg e forkRes now w) := by
  obtain ⟨h1, h2, h3, h4, h5⟩ := h
  obtain ⟨hch, hst, htr, hcc, hcb⟩ := h4 e he
  have hp : w.pending = [e] := mem_length_le_one_eq he h3
  have hfil : w.pending.filter (fun x => x.id ≠ e.id) = [] := by
    rw [hp]
    simp
  simp only [runRestartFire, restartTimerCallback]
  rw [hfil]
  refine ⟨?_, ?_, by simp, ?_, ?_⟩
  · rw [spawnAll_isRestarting]
    exact h1
  · exact le_trans (spawnAll_children_length cfg forkRes now _ hch) (le_of_eq hone)
  · intro x hx
    simp at hx
  · intro hmax
    rw [spawnAll_backoffTime]
    obtain ⟨hlo, hhi⟩ := h5 hmax
    rw [hcb]
    exact ⟨le_min (by omega) hmax, min_le_right _ _⟩

theorem rinv_runStabilityFire (cfg : WorkerConfig) (w : WorkerRun)
    (h : RInv cfg w) : RInv cfg (runStabilityFire w) := by
  obtain ⟨h1, h2, h3, h4, h5⟩ := h
  simp only [runStabilityFire]
  by_cases hrun : w.mp.status = .running
  · have hnp : w.pending = [] := by
      cases hp : w.pending with
      | nil => rfl
      | cons a t =>
          have hc := (h4 a (by rw [hp]; exact List.mem_cons_self a t)).2.1
          rw [hrun] at hc
          cases hc
    simp only [stabilityFireF, hrun, if_pos]
    refine ⟨h1, h2, h3, ?_, ?_⟩
    · intro e he
      rw [hnp] at he
      cases he
    · intro hmax
      exact ⟨le_refl _, hmax⟩
  · simp only [stabilityFireF, if_neg hrun]
    exact ⟨h1, h2, h3, fun e he => h4 e he, h5⟩

theorem rinv_runProbeTick (cfg : WorkerConfig) (alive : Bool) (w : WorkerRun)
    (h : RInv cfg w) : RInv cfg (runProbeTick cfg alive w) := by
  obtain ⟨h1, h2, h3, h4, h5⟩ := h
  obtain ⟨f1, f2, f3, f4⟩ := probeTickF_fields cfg alive w.mp h1
  simp only [runProbeTick]
  split_ifs with hpt hrun halive hth hrr
  · exact ⟨h1, h2, h3, h4, h5⟩
  · exact ⟨h1, h2, h3, h4, h5⟩
  · have hnp : w.pending = [] := by
      cases hp : w.pending with
      | nil => rfl
      | cons a t =>
          have hc := (h4 a (by rw [hp]; exact List.mem_cons_self a t)).2.1
          rw [not_not.mp hrun] at hc
          cases hc
    refine ⟨f1, le_trans f4 h2, h3, ?_, ?_⟩
    · intro e he
      rw [hnp] at he
      cases he
    · intro hmax
      rw [f3]
      exact h5 hmax
  · rw [h1] at hrr
    cases hrr
  · have hnp : w.pending = [] := by
      cases hp : w.pending with
      | nil => rfl
      | cons a t =>
          have hc := (h4 a (by rw [hp]; exact List.mem_cons_self a t)).2.1
          rw [not_not.mp hrun] at hc
          cases hc
    rw [cancelTracked_of_nil w hnp]
    refine ⟨f1, le_trans f4 h2, by simp, ?_, ?_⟩
    · intro e he
      simp at he
    · intro hmax
      rw [f3]
      exact h5 hmax
  · have hnp : w.pending = [] := by
      cases hp : w.pending with
      | nil => rfl
      | cons a t =>
          have hc := (h4 a (by rw [hp]; exact List.mem_cons_self a t)).2.1
          rw [not_not.mp hrun] at hc
          cases hc
    refine ⟨f1, le_trans f4 h2, h3, ?_, ?_⟩
    · intro e he
      rw [hnp] at he
      cases he
    · intro hmax
      rw [f3]
      exact h5 hmax

theorem rinv_step (cfg : WorkerConfig) (w v : WorkerRun)
    (hone : resolvedInstances cfg = 1) (h : RInv cfg w)
    (hst : RStep cfg w v) : RInv cfg v := by
  cases hst with
  | startCmd forkRes now w => exact rinv_runStart cfg forkRes now w hone h
  | stopCmd timedOut w => exact rinv_runStop cfg timedOut w h
  | restartCmd w => exact rinv_runRestart cfg w h
  | childExit child code uptime forkRes now w hmem =>
      exact rinv_runChildExit cfg child code uptime forkRes now w hone hmem h
  | restartFire e forkRes now w he =>
      exact rinv_runRestartFire cfg e forkRes now w hone he h
  | stabilityFire w hne => exact rinv_runStabilityFire cfg w h
  | probeTick alive w => exact rinv_runProbeTick cfg alive w h

/-- Every refined-reachable state of a single-instance worker satisfies
the refined invariant. -/
theorem rinv_reachable (cfg : WorkerConfig) (w : WorkerRun)
    (hone : resolvedInstances cfg = 1) (hr : RReachable cfg w) :
    RInv cfg w := by
  induction hr with
  | init => exact rinv_init cfg
  | step hr hst ih => exact rinv_step cfg _ _ hone ih hst

/-- Counterexample to C4 as stated.  `scheduleRestart` never cancels the
previously armed timeout — `patch({restartTimer})` only overwrites the
stored handle — so after both children of the two-instance cluster worker
crash, two timeouts are pending with the same scheduling-time capture
`(restartCount = 0, backoffTime = 1000)`.  The first firing takes
`restartCount` to 1 and respawns; the reachable state `wCluster4` still
holds the stale timeout, and when it fires it patches
`restartCount := 0 + 1 = 1`: the worker's `restartCount` does not
increase at that firing, let alone by exactly 1. -/
theorem stale_restart_fire_counterexample :
    RReachable cfgCluster wCluster4 ∧
    ({ id := 0, capturedCount := 0, capturedBackoff := 1000 } : TimerEntry) ∈
      wCluster4.pending ∧
    wCluster4.mp.restartCount = 1 ∧
    (runRestartFire cfgCluster
        { id := 0, capturedCount := 0, capturedBackoff := 1000 }
        [some 13] 6 wCluster4).mp.restartCount = wCluster4.mp.restartCount ∧
    ¬((runRestartFire cfgCluster
        { id := 0, capturedCount := 0, capturedBackoff := 1000 }
        [some 13] 6 wCluster4).mp.restartCount =
      wCluster4.mp.restartCount + 1) :=
  ⟨wCluster4_reachable, by decide, by decide, by decide, by decide⟩

/-- C4 (amended): every restart-timer firing — whether the store still
tracks its handle or it is stale — sets `restartCount` to its captured
count + 1 and `backoffTime` to `min(capturedBackoff × 2, maxBackoff)`,
the capture being the values `scheduleRestart` closed over; a stale
firing therefore need not increase `restartCount`.  For fork-mode
(single-instance) workers at most one restart timeout is ever pending and
its capture equals the worker's current counters, so there every firing
increases `restartCount` by exactly 1 and updates `backoffTime` to
`min(backoffTime × 2, maxBackoff)` — non-decreasing and never above
`maxBackoff` for any ceiling of at least the initial 1000 ms backoff
(default 16000 ms). -/
theorem restart_fire_applies_capture (cfg : WorkerConfig) :
    (∀ (e : TimerEntry) (forkRes : List (Option Nat)) (now : Nat)
        (w : WorkerRun),
      (runRestartFire cfg e forkRes now w).mp.restartCount =
        e.capturedCount + 1 ∧
      (runRestartFire cfg e forkRes now w).mp.backoffTime =
        min (e.capturedBackoff * 2) (maxBackoffOf cfg)) ∧
    (∀ (w : WorkerRun), cfg.mode = .fork → RReachable cfg w →
      ∀ e ∈ w.pending, INIT_BACKOFF ≤ maxBackoffOf cfg →
      ∀ (forkRes : List (Option Nat)) (now : Nat),
        (runRestartFire cfg e forkRes now w).mp.restartCount =
          w.mp.restartCount + 1 ∧
        (runRestartFire cfg e forkRes now w).mp.backoffTime =
          min (w.mp.backoffTime * 2) (maxBackoffOf cfg) ∧
        w.mp.backoffTime ≤ (runRestartFire cfg e forkRes now w).mp.backoffTime ∧
        (runRestartFire cfg e forkRes now w).mp.backoffTime ≤ maxBackoffOf cfg) := by
  constructor
  · intro e forkRes now w
    simp only [runRestartFire, restartTimerCallback]
    rw [spawnAll_restartCount, spawnAll_backoffTime]
    exact ⟨rfl, rfl⟩
  · intro w hfork hr e he hmax forkRes now
    have hone : resolvedInstances cfg = 1 := by
      simp [resolvedInstances, hfork]
    obtain ⟨h1, h2, h3, h4, h5⟩ := rinv_reachable cfg w hone hr
    obtain ⟨hch, hst, htr, hcc, hcb⟩ := h4 e he
    obtain ⟨hlo, hhi⟩ := h5 hmax
    simp only [runRestartFire, restartTimerCallback]
    rw [spawnAll_restartCount, spawnAll_backoffTime]
    refine ⟨?_, ?_, ?_, ?_⟩
    · rw [hcc]
    · rw [hcb]
    · rw [hcb]
      exact le_min (by omega) hhi
    · exact min_le_right _ _

/-- Witness for C4 (amended): at the concrete fork crash state `wFork2`
the firing of the single pending timeout takes `restartCount` from 0 to 1
and the backoff from 1000 to `min(2000, 16000) = 2000`. -/
theorem restart_fire_applies_capture_witness :
    ((runRestartFire cfgFork
        { id := 0, capturedCount := 0, capturedBackoff := 1000 }
        [some 8] 3000 wFork2).mp.restartCount =
      ({ id := 0, capturedCount := 0, capturedBackoff := 1000 } :
        TimerEntry).capturedCount + 1 ∧
    (runRestartFire cfgFork
        { id := 0, capturedCount := 0, capturedBackoff := 1000 }
        [some 8] 3000 wFork2).mp.backoffTime =
      min (({ id := 0, capturedCount := 0, capturedBackoff := 1000 } :
        TimerEntry).capturedBackoff * 2) (maxBackoffOf cfgFork)) ∧
    ((runRestartFire cfgFork
        { id := 0, capturedCount := 0, capturedBackoff := 1000 }
        [some 8] 3000 wFork2).mp.restartCount = wFork2.mp.restartCount + 1 ∧
    (runRestartFire cfgFork
        { id := 0, capturedCount := 0, capturedBackoff := 1000 }
        [some 8] 3000 wFork2).mp.backoffTime =
      min (wFork2.mp.backoffTime * 2) (maxBackoffOf cfgFork) ∧
    wFork2.mp.backoffTime ≤
      (runRestartFire cfgFork
        { id := 0, capturedCount := 0, capturedBackoff := 1000 }
        [some 8] 3000 wFork2).mp.backoffTime ∧
    (runRestartFire cfgFork
        { id := 0, capturedCount := 0, capturedBackoff := 1000 }
        [some 8] 3000 wFork2).mp.backoffTime ≤ maxBackoffOf cfgFork) :=
  ⟨(restart_fire_applies_capture cfgFork).1
      { id := 0, capturedCount := 0, capturedBackoff := 1000 } [some 8] 3000 wFork2,
   (restart_fire_applies_capture cfgFork).2 wFork2 rfl wFork2_reachable
      { id := 0, capturedCount := 0, capturedBackoff := 1000 } (by decide)
      (by decide) [some 8] 3000⟩

end ZPM
